import Mathlib

/-!
Verification development for the Game-Backlog import core.

The TypeScript sources are shallowly embedded as executable Lean
definitions:

* `Normalizers` embeds lib/normalizers.ts (slugify, canonical,
  uniqueCanonical, normalizeGame, normalizeScreenshots, normalizeTags,
  normalizePlatforms).
* `ImportRoute` embeds the canonical app/api/steam/import/route.ts
  (unwrapDetailsResponse, the NO_APPDETAILS gate of importOne, and the
  database writes of its transaction over an explicit store state).
* `Part004` embeds the denylist-checking importOne variant
  (src/unnamed/part_004) as a function that also records which network
  calls were issued.
* `OwnedRoute` embeds app/api/steam/owned/route.ts (query-parameter
  clamping, denylist filtering, page slicing, chunking, per-item
  outcome classification and the inter-group sleeps).
* `Steam` embeds fetchAppDetails of lib/steam.ts as a function of a
  response oracle that also records the requests issued and the sleeps
  performed.

JavaScript numbers are modelled as integers (the query parameters and
ids are integral in every observed call); JSON values are modelled by
the inductive `JVal`.
-/

namespace StrUtil

/-- Lowercase a string character by character, as String.prototype.toLowerCase
does for the ASCII range. -/
def toLower (s : String) : String :=
  String.mk (s.toList.map Char.toLower)

/-- Remove every occurrence of a set of characters. -/
def removeChars (bad : List Char) (s : String) : String :=
  String.mk (s.toList.filter (fun c => !bad.contains c))

/-- Collapse every maximal run of characters satisfying p into a single
replacement character; the inRun flag records whether the previous
character belonged to a run already replaced. -/
def collapseAux (p : Char → Bool) (repl : Char) : Bool → List Char → List Char
  | _, [] => []
  | inRun, c :: cs =>
    if p c then
      if inRun then collapseAux p repl true cs
      else repl :: collapseAux p repl true cs
    else c :: collapseAux p repl false cs

/-- Collapse every maximal run of characters satisfying p into a single
replacement character, as a JavaScript global regex replace of a
one-or-more character class does. -/
def collapseRuns (p : Char → Bool) (repl : Char) (l : List Char) : List Char :=
  collapseAux p repl false l

/-- Strip whitespace from both ends, as String.prototype.trim and the
trim of the TypeScript standard library do. -/
def jsTrim (s : String) : String :=
  String.mk (((s.toList.dropWhile Char.isWhitespace).reverse.dropWhile
    Char.isWhitespace).reverse)

/-- Strip the given character from both ends of a string. -/
def stripEnds (bad : Char) (s : String) : String :=
  String.mk (((s.toList.dropWhile (· == bad)).reverse.dropWhile (· == bad)).reverse)

/-- Decide whether needle occurs as a contiguous substring of hay. -/
def listInfix (needle hay : List Char) : Bool :=
  match hay with
  | [] => needle.isEmpty
  | _ :: t => needle.isPrefixOf hay || listInfix needle t

/-- String-level wrapper for listInfix, modelling
String.prototype.includes. -/
def strIncludes (hay needle : String) : Bool :=
  listInfix needle.toList hay.toList

end StrUtil

namespace Normalizers

/-- Entry of the upstream screenshots list (lib/normalizers.ts,
SteamAppDetails.screenshots). -/
structure RawScreenshot where
  path_full : Option String
  path_thumbnail : Option String
deriving Repr, DecidableEq

/-- Entry of the upstream genres/categories lists; only the description
field is read by the normalizers. -/
structure RawTagEntry where
  description : Option String
deriving Repr, DecidableEq

/-- Upstream platform boolean flags. A missing or null flag behaves as
false under JavaScript truthiness, so the flags are modelled as Bool. -/
structure PlatformFlags where
  windows : Bool
  mac : Bool
  linux : Bool
deriving Repr, DecidableEq

/-- Upstream release-date object. -/
structure RawReleaseDate where
  date : Option String
  coming_soon : Option Bool
deriving Repr, DecidableEq

/-- Upstream metacritic object. -/
structure RawMetacritic where
  score : Option Int
deriving Repr, DecidableEq

/-- Typed view of a Steam appdetails payload, following the
SteamAppDetails interface of lib/normalizers.ts. -/
structure SteamAppDetails where
  name : Option String := none
  short_description : Option String := none
  header_image : Option String := none
  capsule_imagev5 : Option String := none
  developers : Option (List (Option String)) := none
  publishers : Option (List (Option String)) := none
  release_date : Option RawReleaseDate := none
  metacritic : Option RawMetacritic := none
  screenshots : Option (List RawScreenshot) := none
  genres : Option (List RawTagEntry) := none
  categories : Option (List RawTagEntry) := none
  platforms : Option PlatformFlags := none
deriving Repr, DecidableEq

/-- Review-summary payload (lib/normalizers.ts ReviewsSummary). -/
structure QuerySummary where
  review_score_desc : Option String := none
  total_reviews : Option Nat := none
  total_positive : Option Nat := none
deriving Repr, DecidableEq

/-- Envelope of the review-summary payload. -/
structure ReviewsSummary where
  query_summary : Option QuerySummary := none
deriving Repr, DecidableEq

/-- Embedding of slugify (lib/normalizers.ts lines 50-57): lowercase,
trim, drop apostrophe and double-quote characters, collapse every run
of characters outside [a-z0-9] into a single dash, then strip dashes at
the ends. The final JavaScript step strips one dash from each end per
regex match, which coincides with stripping all of them because the
previous step never leaves two adjacent dashes. -/
def slugify (input : String) : String :=
  let lowered := StrUtil.toLower input
  let trimmed := StrUtil.jsTrim lowered
  let unquoted := StrUtil.removeChars [Char.ofNat 39, Char.ofNat 34] trimmed
  let dashed := String.mk (StrUtil.collapseRuns
    (fun c => !((Char.ofNat 97 ≤ c ∧ c ≤ Char.ofNat 122) ∨
                (Char.ofNat 48 ≤ c ∧ c ≤ Char.ofNat 57) : Bool))
    (Char.ofNat 45) unquoted.toList)
  StrUtil.stripEnds (Char.ofNat 45) dashed

/-- Embedding of generateGameSlug (lib/normalizers.ts lines 60-62):
slug = slugify(name) ++ "-" ++ appId, guaranteeing uniqueness across
same-titled games. -/
def generateGameSlug (name : String) (steamAppId : Int) : String :=
  slugify name ++ "-" ++ toString steamAppId

/-- Embedding of canonical (lib/normalizers.ts line 179): trim,
lowercase, collapse internal whitespace runs to a single space. -/
def canonical (s : String) : String :=
  String.mk (StrUtil.collapseRuns Char.isWhitespace (Char.ofNat 32)
    (StrUtil.toLower (StrUtil.jsTrim s)).toList)

/-- Insert an element at the end unless it is already present; the
accumulator step of a JavaScript Set built by iteration. -/
def pushIfNew (acc : List String) (n : String) : List String :=
  if n ∈ acc then acc else acc ++ [n]

/-- Embedding of uniqueCanonical (lib/normalizers.ts line 180):
Array.from(new Set(names.map(canonical))) — the output holds the
canonical forms themselves, in first-occurrence order. -/
def uniqueCanonical (names : List String) : List String :=
  (names.map canonical).foldl pushIfNew []

/-- Normalized screenshot row (imageUrl, thumbnailUrl, sortIndex). -/
structure ScreenshotRow where
  imageUrl : String
  thumbnailUrl : Option String
  sortIndex : Nat
deriving Repr, DecidableEq

/-- Embedding of normalizeScreenshots (lib/normalizers.ts lines
142-151): imageUrl = path_full ?? path_thumbnail ?? "", thumbnailUrl =
path_thumbnail ?? null, sortIndex = source position; entries whose
imageUrl is empty are dropped. -/
def normalizeScreenshots (d : SteamAppDetails) : List ScreenshotRow :=
  let shots := d.screenshots.getD []
  ((shots.enum).map (fun si =>
    { imageUrl := si.2.path_full.getD (si.2.path_thumbnail.getD "")
      thumbnailUrl := si.2.path_thumbnail
      sortIndex := si.1 })).filter (fun s => s.imageUrl ≠ "")

/-- Keep a description only when it is present and non-empty, as the
JavaScript filter(Boolean) does on strings. -/
def truthyString (s : Option String) : Option String :=
  match s with
  | some v => if v = "" then none else some v
  | none => none

/-- Embedding of normalizeTags (lib/normalizers.ts lines 153-167):
concatenate genre and category descriptions (dropping falsy ones), trim
each, and deduplicate exactly while preserving order. -/
def normalizeTags (d : SteamAppDetails) : List String :=
  let genres := (d.genres.getD []).filterMap (fun g => truthyString g.description)
  let categories := (d.categories.getD []).filterMap (fun c => truthyString c.description)
  ((genres ++ categories).map StrUtil.jsTrim).foldl
    (fun acc name => if name ≠ "" ∧ name ∉ acc then acc ++ [name] else acc) []

/-- Embedding of normalizePlatforms (lib/normalizers.ts lines
169-176). -/
def normalizePlatforms (d : SteamAppDetails) : List String :=
  let p := d.platforms.getD ⟨false, false, false⟩
  (if p.windows then ["Windows"] else []) ++
  (if p.mac then ["Mac"] else []) ++
  (if p.linux then ["Linux"] else [])

/-- Embedding of extractTagNamesFromSteam (lib/normalizers.ts line
183), a wrapper around normalizeTags. -/
def extractTagNamesFromSteam (d : SteamAppDetails) : List String :=
  normalizeTags d

/-- Embedding of extractPlatformNamesFromSteam (lib/normalizers.ts line
187), a wrapper around normalizePlatforms. -/
def extractPlatformNamesFromSteam (d : SteamAppDetails) : List String :=
  normalizePlatforms d

/-- Math.round((positive / total) * 100) for a positive total, written
over naturals: round half away from zero equals floor(x + 1/2). -/
def reviewPercent (positive total : Nat) : Nat :=
  (200 * positive + total) / (2 * total)

/-- Normalized game fields produced by normalizeGame. The releaseDate
field (a JavaScript Date parse) is outside the model; no claim concerns
it. -/
structure GameData where
  steamAppId : Int
  title : String
  slug : String
  summary : Option String
  headerImageUrl : Option String
  heroCapsuleUrl : Option String
  developerName : Option String
  publisherName : Option String
  metacriticScore : Option Int
  steamReviewLabel : Option String
  steamReviewCount : Option Nat
  steamReviewPercent : Option Nat
deriving Repr, DecidableEq

/-- First element of an optional list of nullable strings, as
list[0] ?? null. -/
def firstOrNone (l : Option (List (Option String))) : Option String :=
  match l with
  | some (v :: _) => v
  | _ => none

/-- Embedding of normalizeGame (lib/normalizers.ts lines 92-140):
title falls back to "app-" ++ id, slug = generateGameSlug(title, id),
review percent = Math.round(100 * positive / total) when total > 0. -/
def normalizeGame (appId : Int) (d : SteamAppDetails)
    (reviews : Option ReviewsSummary) : GameData :=
  let title := d.name.getD ("app-" ++ toString appId)
  let qs := reviews.bind (fun r => r.query_summary)
  let total := (qs.bind (fun q => q.total_reviews)).getD 0
  let positive := (qs.bind (fun q => q.total_positive)).getD 0
  { steamAppId := appId
    title := title
    slug := generateGameSlug title appId
    summary := d.short_description
    headerImageUrl := d.header_image
    heroCapsuleUrl := d.capsule_imagev5
    developerName := firstOrNone d.developers
    publisherName := firstOrNone d.publishers
    metacriticScore := d.metacritic.bind (fun m => m.score)
    steamReviewLabel := qs.bind (fun q => q.review_score_desc)
    steamReviewCount := if qs.isSome ∧ total ≠ 0 then some total else none
    steamReviewPercent := if qs.isSome ∧ 0 < total then some (reviewPercent positive total) else none }

end Normalizers

/-- Untyped JSON value, as handled by the duck-typed unwrapping code of
the import route. -/
inductive JVal where
  | jnull
  | jbool (b : Bool)
  | jnum (n : Int)
  | jstr (s : String)
  | jarr (elems : List JVal)
  | jobj (fields : List (String × JVal))
deriving Repr

namespace JVal

/-- JavaScript truthiness of a JSON value. -/
def truthy : JVal → Bool
  | .jnull => false
  | .jbool b => b
  | .jnum n => n != 0
  | .jstr s => s != ""
  | .jarr _ => true
  | .jobj _ => true

/-- Whether the JavaScript typeof operator answers "object" for a
non-null value: plain objects and arrays. -/
def isObjType : JVal → Bool
  | .jarr _ => true
  | .jobj _ => true
  | _ => false

/-- Property read v[k]: first binding of an object field, or the
element at a canonical numeric index of an array; none models
undefined. -/
def getField (v : JVal) (k : String) : Option JVal :=
  match v with
  | .jobj fs => fs.lookup k
  | .jarr xs =>
    match k.toNat? with
    | some i => if toString i = k then xs.get? i else none
    | none => none
  | _ => none

/-- Field read yielding some b exactly when typeof v.k is boolean. -/
def successField (v : JVal) : Option Bool :=
  match getField v "success" with
  | some (.jbool b) => some b
  | _ => none

/-- Whether v.k is a string. -/
def isStrField (v : JVal) (k : String) : Bool :=
  match getField v k with
  | some (.jstr _) => true
  | _ => false

end JVal

namespace ImportRoute

open JVal

/-- Embedding of hasDetailsShape (app/api/steam/import/route.ts lines
172-180): the payload-validity heuristic, true when the value is a
truthy object carrying a string name, a string short_description, or a
truthy object-typed release_date. -/
def hasDetailsShape (x : JVal) : Bool :=
  truthy x && isObjType x &&
    (isStrField x "name" || isStrField x "short_description" ||
      (match getField x "release_date" with
       | some v => truthy v && isObjType v
       | none => false))

/-- Envelope shapes recognized by unwrapDetailsResponse. -/
inductive Shape where
  | A
  | B
  | C
  | D
  | unknown
deriving Repr, DecidableEq

/-- Uniform result of unwrapDetailsResponse. -/
structure Unwrapped where
  success : Bool
  data : Option JVal
  shape : Shape
deriving Repr

/-- Expression obj.data ?? (hasDetailsShape(obj) ? obj : null): the
data field unless it is nullish, else the object itself when it passes
the heuristic. -/
def dataWithFallback (obj : JVal) : Option JVal :=
  match getField obj "data" with
  | some .jnull => if hasDetailsShape obj then some obj else none
  | none => if hasDetailsShape obj then some obj else none
  | some v => some v

/-- Embedding of unwrapDetailsResponse (app/api/steam/import/route.ts
lines 188-221). Non-objects yield none; otherwise the shapes are tried
in source order: B (payload has a boolean success field), A (the entry
keyed by the appId has a boolean success field), D (that entry passes
the heuristic), C (the payload itself passes the heuristic), and
finally an unknown-shape failure record. -/
def unwrapDetailsResponse (payload : JVal) (appId : Int) : Option Unwrapped :=
  if !(truthy payload && isObjType payload) then none
  else
    match successField payload with
    | some b => some ⟨b, dataWithFallback payload, .B⟩
    | none =>
      match getField payload (toString appId) with
      | some e =>
        match successField e with
        | some b => some ⟨b, dataWithFallback e, .A⟩
        | none =>
          if hasDetailsShape e then some ⟨true, some e, .D⟩
          else if hasDetailsShape payload then some ⟨true, some payload, .C⟩
          else some ⟨false, none, .unknown⟩
      | none =>
        if hasDetailsShape payload then some ⟨true, some payload, .C⟩
        else some ⟨false, none, .unknown⟩

/-- Outcome of the detail gate at the start of importOne. -/
inductive GateResult where
  | noAppdetails
  | ok (d : JVal)
deriving Repr

/-- Embedding of the guard of importOne (app/api/steam/import/route.ts
lines 243-267): the unwrapped payload is rejected as NO_APPDETAILS when
unwrapping failed, success is false, or the data slot is nullish or
falsy; otherwise the data continues into normalization. -/
def importDetailGate (payload : JVal) (appId : Int) : GateResult :=
  match unwrapDetailsResponse payload appId with
  | none => .noAppdetails
  | some u =>
    if !u.success then .noAppdetails
    else
      match u.data with
      | none => .noAppdetails
      | some d => if truthy d then .ok d else .noAppdetails

/-- HTTP response summary: status plus the machine-readable code
field. -/
structure WebResponse where
  status : Nat
  code : Option String
deriving Repr, DecidableEq

/-- Response of importOne on a payload that fails the detail gate
(app/api/steam/import/route.ts lines 258-266): none when the gate
passes and the import proceeds. -/
def importOneGateResponse (payload : JVal) (appId : Int) : Option WebResponse :=
  match importDetailGate payload appId with
  | .noAppdetails => some ⟨422, some "NO_APPDETAILS"⟩
  | .ok _ => none

end ImportRoute

namespace ImportRoute

open Normalizers

/-- Stored Game row; the fields written by the import route (the
releaseDate column, a JavaScript Date, is outside the model). -/
structure Game where
  steamAppId : Int
  title : String
  slug : String
  summary : Option String
  headerImageUrl : Option String
  heroCapsuleUrl : Option String
  developerName : Option String
  publisherName : Option String
  metacriticScore : Option Int
  steamReviewLabel : Option String
  steamReviewCount : Option Nat
  steamReviewPercent : Option Nat
deriving Repr, DecidableEq

/-- Relational store touched by the import transaction. Games are keyed
by their unique steamAppId, tag and platform vocabularies by their
unique name, and the join and screenshot rows reference the game by
that key (the surrogate cuid of the real schema is in bijection with it
via the unique constraint). -/
structure Db where
  games : List Game
  tags : List String
  platforms : List String
  gameTags : List (Int × String)
  gamePlatforms : List (Int × String)
  screenshots : List (Int × ScreenshotRow)
deriving Repr, DecidableEq

/-- Empty store. -/
def Db.empty : Db := ⟨[], [], [], [], [], []⟩

/-- Game row created from normalized fields (the create branch of the
upsert, which does write the slug). -/
def createGame (gd : GameData) : Game :=
  { steamAppId := gd.steamAppId
    title := gd.title
    slug := gd.slug
    summary := gd.summary
    headerImageUrl := gd.headerImageUrl
    heroCapsuleUrl := gd.heroCapsuleUrl
    developerName := gd.developerName
    publisherName := gd.publisherName
    metacriticScore := gd.metacriticScore
    steamReviewLabel := gd.steamReviewLabel
    steamReviewCount := gd.steamReviewCount
    steamReviewPercent := gd.steamReviewPercent }

/-- Update branch of the upsert: the spread of updateData, where
updateData is gameData with the slug field destructured away
(app/api/steam/import/route.ts line 276), so every field except the
stored slug is overwritten. -/
def applyUpdate (g : Game) (gd : GameData) : Game :=
  { g with
    steamAppId := gd.steamAppId
    title := gd.title
    summary := gd.summary
    headerImageUrl := gd.headerImageUrl
    heroCapsuleUrl := gd.heroCapsuleUrl
    developerName := gd.developerName
    publisherName := gd.publisherName
    metacriticScore := gd.metacriticScore
    steamReviewLabel := gd.steamReviewLabel
    steamReviewCount := gd.steamReviewCount
    steamReviewPercent := gd.steamReviewPercent }

/-- Upsert of the Game row by steamAppId (app/api/steam/import/route.ts
lines 309-313). -/
def upsertGame (games : List Game) (appId : Int) (gd : GameData) : List Game :=
  if games.any (fun g => g.steamAppId == appId) then
    games.map (fun g => if g.steamAppId == appId then applyUpdate g gd else g)
  else
    games ++ [createGame gd]

/-- Row lookup by the unique steamAppId key. -/
def findGame (db : Db) (appId : Int) : Option Game :=
  db.games.find? (fun g => g.steamAppId == appId)

/-- Join-row insertion with skipDuplicates semantics on the unique
(game, name) pair. -/
def linkIfNew (acc : List (Int × String)) (appId : Int) (n : String) : List (Int × String) :=
  if (appId, n) ∈ acc then acc else acc ++ [(appId, n)]

/-- Screenshot rows currently stored for a game, in store order. -/
def screenshotsFor (db : Db) (appId : Int) : List ScreenshotRow :=
  (db.screenshots.filter (fun r => r.1 == appId)).map (fun r => r.2)

/-- Embedding of the persistence phase of importOne
(app/api/steam/import/route.ts lines 275-338) run on gate-approved,
normalized data: seed the tag and platform vocabularies with
createMany-skipDuplicates outside the transaction, then atomically
upsert the Game (slug excluded from the update), link the join rows
with skipDuplicates, delete every screenshot row of the game and insert
the newly normalized list. -/
def importApply (db : Db) (appId : Int) (d : SteamAppDetails)
    (reviews : Option ReviewsSummary) : Db :=
  let gameData := normalizeGame appId d reviews
  let tagNames := uniqueCanonical (extractTagNamesFromSteam d)
  let platformNames := uniqueCanonical (extractPlatformNamesFromSteam d)
  let shots := normalizeScreenshots d
  let tags1 := tagNames.foldl pushIfNew db.tags
  let platforms1 := platformNames.foldl pushIfNew db.platforms
  let tagRows := tags1.filter (fun n => n ∈ tagNames)
  let platformRows := platforms1.filter (fun n => n ∈ platformNames)
  { games := upsertGame db.games appId gameData
    tags := tags1
    platforms := platforms1
    gameTags := tagRows.foldl (fun acc n => linkIfNew acc appId n) db.gameTags
    gamePlatforms := platformRows.foldl (fun acc n => linkIfNew acc appId n) db.gamePlatforms
    screenshots := db.screenshots.filter (fun r => r.1 != appId)
      ++ shots.map (fun s => (appId, s)) }

end ImportRoute

namespace Part004

open Normalizers ImportRoute JVal

/-- String field read of a duck-typed payload; a missing or non-string
value reads as absent. -/
def asStrField (v : JVal) (k : String) : Option String :=
  match getField v k with
  | some (.jstr s) => some s
  | _ => none

/-- Integer field read of a duck-typed payload. -/
def asIntField (v : JVal) (k : String) : Option Int :=
  match getField v k with
  | some (.jnum n) => some n
  | _ => none

/-- Truthiness of a possibly missing field, as an if over p.windows and
friends evaluates it. -/
def truthyField (v : JVal) (k : String) : Bool :=
  match getField v k with
  | some x => truthy x
  | none => false

/-- Typed view of an unwrapped details JSON object, reading exactly the
fields the normalizers consume. -/
def detailsOfJVal (v : JVal) : SteamAppDetails :=
  { name := asStrField v "name"
    short_description := asStrField v "short_description"
    header_image := asStrField v "header_image"
    capsule_imagev5 := asStrField v "capsule_imagev5"
    developers :=
      match getField v "developers" with
      | some (.jarr xs) => some (xs.map (fun x =>
          match x with
          | .jstr s => some s
          | _ => none))
      | _ => none
    publishers :=
      match getField v "publishers" with
      | some (.jarr xs) => some (xs.map (fun x =>
          match x with
          | .jstr s => some s
          | _ => none))
      | _ => none
    release_date :=
      match getField v "release_date" with
      | some (.jobj fs) =>
        some { date := asStrField (.jobj fs) "date"
               coming_soon :=
                 match getField (.jobj fs) "coming_soon" with
                 | some (.jbool b) => some b
                 | _ => none }
      | _ => none
    metacritic :=
      match getField v "metacritic" with
      | some (.jobj fs) => some { score := asIntField (.jobj fs) "score" }
      | _ => none
    screenshots :=
      match getField v "screenshots" with
      | some (.jarr xs) => some (xs.map (fun x =>
          { path_full := asStrField x "path_full"
            path_thumbnail := asStrField x "path_thumbnail" }))
      | _ => none
    genres :=
      match getField v "genres" with
      | some (.jarr xs) => some (xs.map (fun x => { description := asStrField x "description" }))
      | _ => none
    categories :=
      match getField v "categories" with
      | some (.jarr xs) => some (xs.map (fun x => { description := asStrField x "description" }))
      | _ => none
    platforms :=
      match getField v "platforms" with
      | some (.jobj fs) =>
        some { windows := truthyField (.jobj fs) "windows"
               mac := truthyField (.jobj fs) "mac"
               linux := truthyField (.jobj fs) "linux" }
      | _ => none }

/-- Network call issued by the part_004 importOne. -/
inductive NetEvent where
  | fetchDetails (appId : Int)
  | fetchReviews (appId : Int)
deriving Repr, DecidableEq

/-- Persistence phase of the part_004 importOne (lines 134-195): as the
canonical route, except that the screenshot delete-then-insert is
guarded by the new list being non-empty (lines 187-192). -/
def applyWrites (db : Db) (appId : Int) (d : SteamAppDetails)
    (reviews : Option ReviewsSummary) : Db :=
  let gameData := normalizeGame appId d reviews
  let tagNames := uniqueCanonical (extractTagNamesFromSteam d)
  let platformNames := uniqueCanonical (extractPlatformNamesFromSteam d)
  let shots := normalizeScreenshots d
  let tags1 := tagNames.foldl pushIfNew db.tags
  let platforms1 := platformNames.foldl pushIfNew db.platforms
  let tagRows := tags1.filter (fun n => n ∈ tagNames)
  let platformRows := platforms1.filter (fun n => n ∈ platformNames)
  { games := upsertGame db.games appId gameData
    tags := tags1
    platforms := platforms1
    gameTags := tagRows.foldl (fun acc n => linkIfNew acc appId n) db.gameTags
    gamePlatforms := platformRows.foldl (fun acc n => linkIfNew acc appId n) db.gamePlatforms
    screenshots :=
      if shots.isEmpty then db.screenshots
      else db.screenshots.filter (fun r => r.1 != appId)
        ++ shots.map (fun s => (appId, s)) }

/-- Embedding of the part_004 importOne (src/unnamed/part_004 lines
92-222) over a fetched-payload oracle. The result carries the HTTP
response, the store after the call, and the list of network calls
issued, in order: the id-level denylist check precedes the detail
fetch, the slug-level check follows normalization, and the happy path
runs the persistence phase. -/
def importOne (denyIds : List Int) (denySlugs : List String) (appId : Int)
    (payload : JVal) (reviews : Option ReviewsSummary) (db : Db) :
    WebResponse × Db × List NetEvent :=
  if appId ∈ denyIds then
    (⟨422, some "DENYLISTED_APP"⟩, db, [])
  else
    match importDetailGate payload appId with
    | .noAppdetails => (⟨422, some "NO_APPDETAILS"⟩, db, [.fetchDetails appId])
    | .ok dJ =>
      let d := detailsOfJVal dJ
      let gameData := normalizeGame appId d reviews
      if gameData.slug ∈ denySlugs then
        (⟨422, some "DENYLISTED_SLUG"⟩, db, [.fetchDetails appId, .fetchReviews appId])
      else
        (⟨200, none⟩, applyWrites db appId d reviews,
          [.fetchDetails appId, .fetchReviews appId])

end Part004

namespace OwnedRoute

/-- Clamp of the limit query parameter (app/api/steam/owned/route.ts
line 107): Math.max(1, Math.min(value or 250, 250)). -/
def clampLimit (p : Option Int) : Int := max 1 (min (p.getD 250) 250)

/-- Clamp of the offset query parameter (line 108): Math.max(0, value
or 0). -/
def clampOffset (p : Option Int) : Int := max 0 (p.getD 0)

/-- Clamp of the concurrency query parameter (line 110): Math.max(1,
Math.min(value or 5, 10)). -/
def clampConcurrency (p : Option Int) : Int := max 1 (min (p.getD 5) 10)

/-- Clamp of the itemDelayMs and pageDelayMs query parameters (lines
111-112): Math.max(0, value or 0). -/
def clampDelay (p : Option Int) : Int := max 0 (p.getD 0)

/-- Recursion of the chunk helper, structural over a fuel argument that
at least covers the list length (each step consumes at least one
element). -/
def chunkFuel (size : Nat) : Nat → List α → List (List α)
  | 0, _ => []
  | _ + 1, [] => []
  | fuel + 1, x :: xs =>
    (x :: xs).take (max size 1) :: chunkFuel size fuel ((x :: xs).drop (max size 1))

/-- Embedding of the chunk helper (lines 24-28): consecutive slices of
the given size. Every call site passes a clamped size of at least 1;
the inner max keeps the recursion total without changing those calls. -/
def chunk (size : Nat) (xs : List α) : List (List α) :=
  chunkFuel size xs.length xs

/-- Skip classifications produced by skipReason (lines 74-90); the
SKIP_OTHER bucket is initialized by the route but never assigned. -/
inductive SkipReason where
  | alreadyImported
  | noAppdetails
deriving Repr, DecidableEq

/-- Embedding of skipReason (lines 74-90): 409 is ALREADY_IMPORTED, 404
and 422 are NO_APPDETAILS, otherwise a case-insensitive substring match
of the body against the fixed no-data vocabulary yields NO_APPDETAILS,
else no skip. -/
def skipReason (status : Nat) (bodyStr : String) : Option SkipReason :=
  if status == 409 then some .alreadyImported
  else if status == 404 || status == 422 then some .noAppdetails
  else
    let t := StrUtil.toLower bodyStr
    if StrUtil.strIncludes t "no_appdetails" ||
       StrUtil.strIncludes t "appdetails returned no data" ||
       StrUtil.strIncludes t "returned no data for appid" ||
       StrUtil.strIncludes t "no data for appid" then some .noAppdetails
    else none

/-- Final result of the per-item call to the import endpoint, after
withRetryFetch has exhausted its retries: either a response whose
bodyStr stands for the code, error, details or text chain extracted by
readBody, or a network-level exception. -/
inductive ImportResp where
  | resp (status : Nat) (bodyStr : String)
  | exn (msg : String)
deriving Repr, DecidableEq

/-- Per-item outcome recorded by the runner. -/
inductive Outcome where
  | imported
  | skipped (reason : SkipReason)
  | errored (status : Option Nat) (msg : String)
deriving Repr, DecidableEq

/-- Whether the outcome landed in the imported accumulator. -/
def Outcome.isImported : Outcome → Bool
  | .imported => true
  | _ => false

/-- Whether the outcome landed in the skipped accumulator. -/
def Outcome.isSkipped : Outcome → Bool
  | .skipped _ => true
  | _ => false

/-- Whether the outcome landed in the errors accumulator. -/
def Outcome.isErrored : Outcome → Bool
  | .errored _ _ => true
  | _ => false

/-- Embedding of the per-item classification (lines 155-196): an ok
response (status 200-299) is imported; otherwise a non-null skipReason
classifies the item as skipped; otherwise it is recorded as an error
with the body or the fixed fallback message; a thrown exception is
recorded as an error with its message. -/
def classify (r : ImportResp) : Outcome :=
  match r with
  | .exn msg => .errored none msg
  | .resp status body =>
    if 200 ≤ status ∧ status ≤ 299 then .imported
    else
      match skipReason status body with
      | some reason => .skipped reason
      | none => .errored (some status) (if body = "" then "Import failed" else body)

/-- Error entry recorded for an errored outcome (lines 193-195 push
appId, status and message onto the errors accumulator). -/
def errEntry (p : Int × Outcome) : Option (Int × Option Nat × String) :=
  match p.2 with
  | .errored st msg => some (p.1, st, msg)
  | _ => none

/-- One concurrency group as executed by the runner: the classified
members and the sleep performed after the group (lines 198-200: the
fixed pageDelayMs, executed when positive). -/
structure GroupRun where
  items : List (Int × Outcome)
  sleepAfterMs : Nat
deriving Repr, DecidableEq

/-- Response payload of GET /api/steam/owned (lines 206-228), together
with the executed groups. -/
structure PageResult where
  limit : Nat
  offset : Nat
  nextOffset : Nat
  hasMore : Bool
  totalOwned : Nat
  eligibleOwned : Nat
  denylistedCount : Nat
  processed : Nat
  importedCount : Nat
  skippedCount : Nat
  errorCount : Nat
  imported : List Int
  skipped : List Int
  errors : List (Int × Option Nat × String)
  groups : List GroupRun
deriving Repr, DecidableEq

/-- Denylist-filtered eligible owned list (line 127: applied before
slicing). -/
def ownedEligible (ownedAll denyIds : List Int) : List Int :=
  ownedAll.filter (fun a => !denyIds.contains a)

/-- Page window of the eligible list (line 131: slice from offset of
length at most limit, after clamping). -/
def pageSlice (ownedAll denyIds : List Int) (lp op : Option Int) : List Int :=
  ((ownedEligible ownedAll denyIds).drop (clampOffset op).toNat).take (clampLimit lp).toNat

/-- Embedding of the GET /api/steam/owned handler (lines 94-237) after
the owned list has been fetched and normalized to appids: clamp the
query parameters, filter the denylist, slice the page, chunk it by
concurrency, classify every item of every group through the
oracle standing for the import endpoint, and aggregate counts, id
lists and paging fields. -/
def runPage (ownedAll : List Int) (denyIds : List Int)
    (limitParam offsetParam concurrencyParam itemDelayParam pageDelayParam : Option Int)
    (importResp : Int → ImportResp) : PageResult :=
  let limit := (clampLimit limitParam).toNat
  let offset := (clampOffset offsetParam).toNat
  let concurrency := (clampConcurrency concurrencyParam).toNat
  let _itemDelayMs := (clampDelay itemDelayParam).toNat
  let pageDelayMs := (clampDelay pageDelayParam).toNat
  let owned := ownedEligible ownedAll denyIds
  let page := (owned.drop offset).take limit
  let processed := page.length
  let nextOffset := offset + processed
  let groups := chunk concurrency page
  let groupRuns := groups.map (fun g =>
    GroupRun.mk (g.map (fun a => (a, classify (importResp a)))) pageDelayMs)
  let allItems := (groupRuns.map (fun gr => gr.items)).flatten
  let importedIds := (allItems.filter (fun p => p.2.isImported)).map (fun p => p.1)
  let skippedIds := (allItems.filter (fun p => p.2.isSkipped)).map (fun p => p.1)
  let errs := allItems.filterMap errEntry
  { limit := limit
    offset := offset
    nextOffset := nextOffset
    hasMore := decide (nextOffset < owned.length)
    totalOwned := ownedAll.length
    eligibleOwned := owned.length
    denylistedCount := ownedAll.length - owned.length
    processed := processed
    importedCount := importedIds.length
    skippedCount := skippedIds.length
    errorCount := errs.length
    imported := importedIds
    skipped := skippedIds
    errors := errs
    groups := groupRuns }

end OwnedRoute

namespace Steam

open JVal

/-- Result of one HTTP attempt inside fetchAppDetails: the status code
and the JSON.parse of the body (none when the body is not JSON). -/
structure AttemptResponse where
  status : Nat
  body : Option JVal
deriving Repr

/-- Acceptance test of an attempt (lib/steam.ts lines 116-121): the
parsed body must be an object whose entry under the appId key is truthy
and has a boolean success field or a truthy data field. -/
def usableEnvelope (body : Option JVal) (id : Int) : Bool :=
  match body with
  | none => false
  | some j =>
    if truthy j && isObjType j then
      match getField j (toString id) with
      | some e => truthy e && ((successField e).isSome || Part004.truthyField e "data")
      | none => false
    else false

/-- Observable step of fetchAppDetails: an HTTP request (filtered field
set or full payload, with or without the mature-content cookies) or a
sleep of the given duration. -/
inductive Event where
  | request (filtered : Bool) (cookies : Bool)
  | sleep (ms : Nat)
deriving Repr, DecidableEq

/-- Attempt matrix of fetchAppDetails (lib/steam.ts lines 103-108):
attempt index with (filtered, cookies). -/
def attemptMatrix : List (Nat × Bool × Bool) :=
  [(0, true, false), (1, false, false), (2, true, true), (3, false, true)]

/-- Backoff performed after an unusable attempt (lib/steam.ts lines
123-128): 1200 plus up to 400 randomized milliseconds after a 403, 400
milliseconds after a 5xx, nothing otherwise. -/
def statusSleeps (status jitter : Nat) : List Event :=
  if status == 403 then [.sleep (1200 + jitter % 400)]
  else if 500 ≤ status then [.sleep 400]
  else []

/-- Main attempt loop of fetchAppDetails (lib/steam.ts lines 112-129):
consult the oracle for each attempt in order; return the parsed body as
soon as it is usable; otherwise perform the status-dependent backoff
and move to the next attempt. -/
def loop (id : Int) (oracle : Nat → AttemptResponse) (jitter : Nat) :
    List (Nat × Bool × Bool) → Option JVal × List Event
  | [] => (none, [])
  | (i, filtered, cookies) :: rest =>
    let r := oracle i
    if usableEnvelope r.body id then (r.body, [.request filtered cookies])
    else
      let next := loop id oracle jitter rest
      (next.1, .request filtered cookies :: (statusSleeps r.status jitter ++ next.2))

/-- Failure envelope returned when every attempt is exhausted
(lib/steam.ts lines 141-156 and 160-175): success false and data null
under the appId key. The _debug diagnostic blob is outside the model;
no consumer in the import path reads it. -/
def failEnvelope (id : Int) : JVal :=
  .jobj [(toString id, .jobj [("success", .jbool false), ("data", .jnull)])]

/-- Embedding of fetchAppDetails (lib/steam.ts lines 79-176) over a
per-attempt response oracle: run the four-attempt matrix; if none is
usable and the last status was 403, sleep 1500 milliseconds and issue
one final full-payload cookie-bearing attempt; if that too is unusable,
or the last status was not 403, return the failure envelope. The jitter
argument stands for the Math.random draw of the 403 backoff. -/
def fetchAppDetails (id : Int) (oracle : Nat → AttemptResponse) (jitter : Nat) :
    JVal × List Event :=
  match loop id oracle jitter attemptMatrix with
  | (some j, evs) => (j, evs)
  | (none, evs) =>
    let last := oracle 3
    if last.status == 403 then
      let evs2 := evs ++ [.sleep 1500, .request false true]
      let r := oracle 4
      match r.body, usableEnvelope r.body id with
      | some j, true => (j, evs2)
      | _, _ => (failEnvelope id, evs2)
    else (failEnvelope id, evs)

/-- Request parameters of the events, in order. -/
def requestsOf (evs : List Event) : List (Bool × Bool) :=
  evs.filterMap (fun e =>
    match e with
    | .request f c => some (f, c)
    | .sleep _ => none)

end Steam

namespace OwnedRoute

/-- Claim-side definition (spec 4.7): the failure ratio of a group, the
count of outcomes classified NoDetailAvailable divided by the group
size. The route itself computes no such ratio; this definition only
expresses the claim. -/
def specNoDetailRatio (g : GroupRun) : ℚ :=
  ((g.items.filter (fun p => p.2 == Outcome.skipped SkipReason.noAppdetails)).length : ℚ)
    / (g.items.length : ℚ)

end OwnedRoute

namespace ImportRoute

/-- Claim-side definition (spec 4.1): no envelope shape matches the
payload — it is not an object, or it has no boolean success field, its
appId-keyed entry has neither a boolean success field nor the details
shape, and the payload itself lacks the details shape. -/
def specNoShapeMatches (p : JVal) (appId : Int) : Bool :=
  !(JVal.truthy p && JVal.isObjType p) ||
  ((JVal.successField p).isNone &&
    (match JVal.getField p (toString appId) with
     | some e => (JVal.successField e).isNone && !hasDetailsShape e
     | none => true) &&
    !hasDetailsShape p)

end ImportRoute

namespace OwnedRoute

theorem chunkFuel_flatten (size : Nat) :
    ∀ (fuel : Nat) (xs : List α), xs.length ≤ fuel →
      (chunkFuel size fuel xs).flatten = xs := by
  intro fuel
  induction fuel with
  | zero =>
    intro xs h
    rw [List.length_eq_zero.mp (Nat.le_zero.mp h)]
    rfl
  | succ fuel ih =>
    intro xs h
    match xs with
    | [] => rfl
    | x :: t =>
      rw [chunkFuel]
      simp only [List.flatten_cons]
      rw [ih ((x :: t).drop (max size 1))
        (by simp only [List.length_drop, List.length_cons] at h ⊢; omega)]
      exact List.take_append_drop _ _

theorem chunk_flatten (size : Nat) (xs : List α) : (chunk size xs).flatten = xs :=
  chunkFuel_flatten size xs.length xs (Nat.le_refl _)

theorem length_le_of_mem_chunkFuel (size : Nat) :
    ∀ (fuel : Nat) (xs g : List α), g ∈ chunkFuel size fuel xs →
      g.length ≤ max size 1 := by
  intro fuel
  induction fuel with
  | zero =>
    intro xs g h
    simp [chunkFuel] at h
  | succ fuel ih =>
    intro xs g h
    match xs with
    | [] => simp [chunkFuel] at h
    | x :: t =>
      rw [chunkFuel] at h
      rcases List.mem_cons.mp h with hg | hg
      · subst hg
        exact List.length_take_le _ _
      · exact ih _ g hg

theorem length_le_of_mem_chunk (size : Nat) (xs g : List α) (h : g ∈ chunk size xs) :
    g.length ≤ max size 1 :=
  length_le_of_mem_chunkFuel size xs.length xs g h

@[simp] theorem isImported_imported : Outcome.imported.isImported = true := rfl

@[simp] theorem isImported_skipped (r : SkipReason) :
    (Outcome.skipped r).isImported = false := rfl

@[simp] theorem isImported_errored (st : Option Nat) (msg : String) :
    (Outcome.errored st msg).isImported = false := rfl

@[simp] theorem isSkipped_imported : Outcome.imported.isSkipped = false := rfl

@[simp] theorem isSkipped_skipped (r : SkipReason) :
    (Outcome.skipped r).isSkipped = true := rfl

@[simp] theorem isSkipped_errored (st : Option Nat) (msg : String) :
    (Outcome.errored st msg).isSkipped = false := rfl

@[simp] theorem errEntry_imported (b : Int) : errEntry (b, Outcome.imported) = none := rfl

@[simp] theorem errEntry_skipped (b : Int) (r : SkipReason) :
    errEntry (b, Outcome.skipped r) = none := rfl

@[simp] theorem errEntry_errored (b : Int) (st : Option Nat) (msg : String) :
    errEntry (b, Outcome.errored st msg) = some (b, st, msg) := rfl

theorem outcome_partition_length (l : List (Int × Outcome)) :
    (l.filter (fun p => p.2.isImported)).length
      + (l.filter (fun p => p.2.isSkipped)).length
      + (l.filterMap errEntry).length = l.length := by
  induction l with
  | nil => simp
  | cons p t ih =>
    obtain ⟨b, o⟩ := p
    cases o <;> simp [List.filter_cons, List.filterMap_cons, ih] <;> omega

theorem outcome_partition_count (l : List (Int × Outcome)) (a : Int) :
    ((l.filter (fun p => p.2.isImported)).map (fun p => p.1)).count a
      + ((l.filter (fun p => p.2.isSkipped)).map (fun p => p.1)).count a
      + ((l.filterMap errEntry).map (fun e => e.1)).count a
      = (l.map (fun p => p.1)).count a := by
  induction l with
  | nil => simp
  | cons p t ih =>
    obtain ⟨b, o⟩ := p
    cases o <;>
      simp [List.filter_cons, List.filterMap_cons, List.count_cons, ih] <;>
      omega

end OwnedRoute

namespace OwnedRoute

theorem runPage_groups_eq (ownedAll denyIds : List Int) (lp op cp idp pdp : Option Int)
    (f : Int → ImportResp) :
    (runPage ownedAll denyIds lp op cp idp pdp f).groups =
      (chunk (clampConcurrency cp).toNat (pageSlice ownedAll denyIds lp op)).map
        (fun g => GroupRun.mk (g.map (fun a => (a, classify (f a)))) (clampDelay pdp).toNat) := rfl

theorem groupItems_flatten (c d : Nat) (page : List Int) (f : Int → ImportResp) :
    (((chunk c page).map
        (fun g => GroupRun.mk (g.map (fun a => (a, classify (f a)))) d)).map
      (fun gr => gr.items)).flatten = page.map (fun a => (a, classify (f a))) := by
  rw [List.map_map]
  have h : ((fun gr : GroupRun => gr.items) ∘ fun g : List Int =>
      GroupRun.mk (g.map (fun a => (a, classify (f a)))) d) =
      fun g : List Int => g.map (fun a => (a, classify (f a))) := rfl
  rw [h, ← List.map_flatten, chunk_flatten]

theorem runPage_allItems (ownedAll denyIds : List Int) (lp op cp idp pdp : Option Int)
    (f : Int → ImportResp) :
    (((runPage ownedAll denyIds lp op cp idp pdp f).groups.map
      (fun gr => gr.items)).flatten)
      = (pageSlice ownedAll denyIds lp op).map (fun a => (a, classify (f a))) := by
  rw [runPage_groups_eq]
  exact groupItems_flatten _ _ _ _

theorem runPage_imported_eq (ownedAll denyIds : List Int) (lp op cp idp pdp : Option Int)
    (f : Int → ImportResp) :
    (runPage ownedAll denyIds lp op cp idp pdp f).imported =
      ((((runPage ownedAll denyIds lp op cp idp pdp f).groups.map
        (fun gr => gr.items)).flatten.filter (fun p => p.2.isImported)).map
          (fun p => p.1)) := rfl

theorem runPage_skipped_eq (ownedAll denyIds : List Int) (lp op cp idp pdp : Option Int)
    (f : Int → ImportResp) :
    (runPage ownedAll denyIds lp op cp idp pdp f).skipped =
      ((((runPage ownedAll denyIds lp op cp idp pdp f).groups.map
        (fun gr => gr.items)).flatten.filter (fun p => p.2.isSkipped)).map
          (fun p => p.1)) := rfl

theorem runPage_errors_eq (ownedAll denyIds : List Int) (lp op cp idp pdp : Option Int)
    (f : Int → ImportResp) :
    (runPage ownedAll denyIds lp op cp idp pdp f).errors =
      (((runPage ownedAll denyIds lp op cp idp pdp f).groups.map
        (fun gr => gr.items)).flatten.filterMap errEntry) := rfl

theorem runPage_processed_eq (ownedAll denyIds : List Int) (lp op cp idp pdp : Option Int)
    (f : Int → ImportResp) :
    (runPage ownedAll denyIds lp op cp idp pdp f).processed =
      (pageSlice ownedAll denyIds lp op).length := rfl

theorem runPage_offset_eq (ownedAll denyIds : List Int) (lp op cp idp pdp : Option Int)
    (f : Int → ImportResp) :
    (runPage ownedAll denyIds lp op cp idp pdp f).offset = (clampOffset op).toNat := rfl

theorem runPage_limit_eq (ownedAll denyIds : List Int) (lp op cp idp pdp : Option Int)
    (f : Int → ImportResp) :
    (runPage ownedAll denyIds lp op cp idp pdp f).limit = (clampLimit lp).toNat := rfl

theorem runPage_eligible_eq (ownedAll denyIds : List Int) (lp op cp idp pdp : Option Int)
    (f : Int → ImportResp) :
    (runPage ownedAll denyIds lp op cp idp pdp f).eligibleOwned
      = (ownedEligible ownedAll denyIds).length := rfl

theorem runPage_hasMore_eq (ownedAll denyIds : List Int) (lp op cp idp pdp : Option Int)
    (f : Int → ImportResp) :
    (runPage ownedAll denyIds lp op cp idp pdp f).hasMore
      = decide ((clampOffset op).toNat + (pageSlice ownedAll denyIds lp op).length
          < (ownedEligible ownedAll denyIds).length) := rfl

end OwnedRoute

open OwnedRoute in
/-- C5: in every page run, each item of the processed window lands in
exactly one of the imported, skipped, and errors accumulators, so the
three counts sum to processed and, id by id, the three lists jointly
hold each page member exactly once. -/
theorem C5_every_item_classified_once (ownedAll denyIds : List Int)
    (lp op cp idp pdp : Option Int) (f : Int → ImportResp) :
    (runPage ownedAll denyIds lp op cp idp pdp f).importedCount
        + (runPage ownedAll denyIds lp op cp idp pdp f).skippedCount
        + (runPage ownedAll denyIds lp op cp idp pdp f).errorCount
      = (runPage ownedAll denyIds lp op cp idp pdp f).processed ∧
    ∀ a : Int,
      (runPage ownedAll denyIds lp op cp idp pdp f).imported.count a
          + (runPage ownedAll denyIds lp op cp idp pdp f).skipped.count a
          + ((runPage ownedAll denyIds lp op cp idp pdp f).errors.map
              (fun e => e.1)).count a
        = (pageSlice ownedAll denyIds lp op).count a := by
  have hAll := runPage_allItems ownedAll denyIds lp op cp idp pdp f
  constructor
  · have h1 : (runPage ownedAll denyIds lp op cp idp pdp f).importedCount
        = (runPage ownedAll denyIds lp op cp idp pdp f).imported.length := rfl
    have h2 : (runPage ownedAll denyIds lp op cp idp pdp f).skippedCount
        = (runPage ownedAll denyIds lp op cp idp pdp f).skipped.length := rfl
    have h3 : (runPage ownedAll denyIds lp op cp idp pdp f).errorCount
        = (runPage ownedAll denyIds lp op cp idp pdp f).errors.length := rfl
    rw [h1, h2, h3, runPage_imported_eq, runPage_skipped_eq, runPage_errors_eq,
      runPage_processed_eq, hAll]
    have hpart := outcome_partition_length
      ((pageSlice ownedAll denyIds lp op).map (fun a => (a, classify (f a))))
    simpa [List.length_map] using hpart
  · intro a
    rw [runPage_imported_eq, runPage_skipped_eq, runPage_errors_eq, hAll]
    have hpart := outcome_partition_count
      ((pageSlice ownedAll denyIds lp op).map (fun a => (a, classify (f a)))) a
    have hfun : ((fun p : Int × Outcome => p.1) ∘ fun a : Int => (a, classify (f a)))
        = fun a : Int => a := rfl
    rw [List.map_map, hfun, List.map_id'] at hpart
    exact hpart

open OwnedRoute in
/-- C2 counterexample: with an eligible owned list of 3 ids, offset 2
and limit 4, the route returns nextOffset 3 = offset + processed, not
offset + limit = 6 — the claimed equality nextOffset = offset + limit
fails on every short page. -/
theorem C2_counterexample :
    (runPage [1, 2, 3] [] (some 4) (some 2) (some 5) none none
      (fun _ => ImportResp.resp 200 "")).nextOffset = 3 ∧
    (runPage [1, 2, 3] [] (some 4) (some 2) (some 5) none none
        (fun _ => ImportResp.resp 200 "")).offset
      + (runPage [1, 2, 3] [] (some 4) (some 2) (some 5) none none
        (fun _ => ImportResp.resp 200 "")).limit = 6 ∧
    (runPage [1, 2, 3] [] (some 4) (some 2) (some 5) none none
      (fun _ => ImportResp.resp 200 "")).nextOffset ≠ 6 := by
  decide

open OwnedRoute in
/-- C2 (amended): the returned nextOffset equals offset plus the number
of items actually in the window (min of limit and the remaining
eligible list), and hasMore holds exactly when offset + limit is still
below the eligible length — equivalently, when the returned nextOffset
is below it. -/
theorem C2_amended_cursor (ownedAll denyIds : List Int)
    (lp op cp idp pdp : Option Int) (f : Int → ImportResp) :
    (runPage ownedAll denyIds lp op cp idp pdp f).nextOffset
      = (runPage ownedAll denyIds lp op cp idp pdp f).offset
        + (runPage ownedAll denyIds lp op cp idp pdp f).processed ∧
    (runPage ownedAll denyIds lp op cp idp pdp f).processed
      = min (runPage ownedAll denyIds lp op cp idp pdp f).limit
          ((runPage ownedAll denyIds lp op cp idp pdp f).eligibleOwned
            - (runPage ownedAll denyIds lp op cp idp pdp f).offset) ∧
    ((runPage ownedAll denyIds lp op cp idp pdp f).hasMore = true ↔
      (runPage ownedAll denyIds lp op cp idp pdp f).offset
          + (runPage ownedAll denyIds lp op cp idp pdp f).limit
        < (runPage ownedAll denyIds lp op cp idp pdp f).eligibleOwned) := by
  have hp : (runPage ownedAll denyIds lp op cp idp pdp f).processed
      = min (clampLimit lp).toNat
          ((ownedEligible ownedAll denyIds).length - (clampOffset op).toNat) := by
    show (pageSlice ownedAll denyIds lp op).length = _
    simp [pageSlice, List.length_take, List.length_drop]
  refine ⟨rfl, hp, ?_⟩
  rw [runPage_hasMore_eq, runPage_offset_eq, runPage_limit_eq, runPage_eligible_eq]
  have hp2 : (pageSlice ownedAll denyIds lp op).length
      = min (clampLimit lp).toNat
          ((ownedEligible ownedAll denyIds).length - (clampOffset op).toNat) := hp
  have hl : 1 ≤ clampLimit lp := by simp [clampLimit]
  simp only [decide_eq_true_eq]
  omega

open OwnedRoute in
/-- C1 counterexample: a full group of 4 items all classified
NoDetailAvailable — failure ratio 1 ≥ 0.5 — is followed by a sleep of 0
milliseconds, the fixed pageDelayMs default, with no backoff delay and
no jitter; the route computes no failure ratio at all. -/
theorem C1_counterexample :
    (runPage [1, 2, 3, 4] [] (some 4) (some 0) (some 4) none none
        (fun _ => ImportResp.resp 422 "")).groups
      = [GroupRun.mk [(1, Outcome.skipped SkipReason.noAppdetails),
          (2, Outcome.skipped SkipReason.noAppdetails),
          (3, Outcome.skipped SkipReason.noAppdetails),
          (4, Outcome.skipped SkipReason.noAppdetails)] 0] ∧
    specNoDetailRatio (GroupRun.mk [(1, Outcome.skipped SkipReason.noAppdetails),
          (2, Outcome.skipped SkipReason.noAppdetails),
          (3, Outcome.skipped SkipReason.noAppdetails),
          (4, Outcome.skipped SkipReason.noAppdetails)] 0) = 1 ∧
    ((1 : ℚ) / 2 ≤ 1) := by
  refine ⟨by decide, ?_, by norm_num⟩
  norm_num [specNoDetailRatio]

open OwnedRoute in
/-- C1 (amended): after every group — whatever the group's
NoDetailAvailable ratio, and for every import-response oracle — the
runner sleeps the fixed clamped pageDelayMs (0 when unset); the route
has no adaptive backoff path. -/
theorem C1_amended_fixed_group_sleep (ownedAll denyIds : List Int)
    (lp op cp idp pdp : Option Int) (f : Int → ImportResp) :
    ∀ g ∈ (runPage ownedAll denyIds lp op cp idp pdp f).groups,
      g.sleepAfterMs = (clampDelay pdp).toNat := by
  intro g hg
  rw [runPage_groups_eq] at hg
  obtain ⟨g0, -, rfl⟩ := List.mem_map.mp hg
  rfl

open OwnedRoute in
/-- C1 amended witness: the group of the all-NoDetailAvailable run
sleeps exactly the clamped page delay, 0. -/
theorem C1_amended_witness :
    (GroupRun.mk [((1 : Int), Outcome.skipped SkipReason.noAppdetails)] 0).sleepAfterMs
      = (clampDelay none).toNat := by
  exact C1_amended_fixed_group_sleep [1] [] (some 1) (some 0) (some 1) none none
    (fun _ => ImportResp.resp 422 "")
    (GroupRun.mk [(1, Outcome.skipped SkipReason.noAppdetails)] 0) (by decide)

open OwnedRoute in
/-- C10: the query parameters are clamped before processing — limit
into [1, 250], offset to at least 0, concurrency into [1, 10], both
delays to at least 0 — and consequently a page run processes at most
250 items and no concurrency group holds more than 10 items. -/
theorem C10_parameter_clamping (ownedAll denyIds : List Int)
    (lp op cp idp pdp : Option Int) (f : Int → ImportResp) :
    (1 ≤ clampLimit lp ∧ clampLimit lp ≤ 250) ∧
    0 ≤ clampOffset op ∧
    (1 ≤ clampConcurrency cp ∧ clampConcurrency cp ≤ 10) ∧
    (0 ≤ clampDelay idp ∧ 0 ≤ clampDelay pdp) ∧
    (runPage ownedAll denyIds lp op cp idp pdp f).processed ≤ 250 ∧
    ∀ g ∈ (runPage ownedAll denyIds lp op cp idp pdp f).groups,
      g.items.length ≤ 10 := by
  have hLim : 1 ≤ clampLimit lp ∧ clampLimit lp ≤ 250 := by
    unfold clampLimit
    omega
  have hCon : 1 ≤ clampConcurrency cp ∧ clampConcurrency cp ≤ 10 := by
    unfold clampConcurrency
    omega
  refine ⟨hLim, by unfold clampOffset; omega, hCon,
    ⟨by unfold clampDelay; omega, by unfold clampDelay; omega⟩, ?_, ?_⟩
  · rw [runPage_processed_eq]
    have h1 : (pageSlice ownedAll denyIds lp op).length ≤ (clampLimit lp).toNat :=
      List.length_take_le _ _
    omega
  · intro g hg
    rw [runPage_groups_eq] at hg
    obtain ⟨g0, hg0, rfl⟩ := List.mem_map.mp hg
    have h1 := length_le_of_mem_chunk (clampConcurrency cp).toNat _ _ hg0
    have h2 : (g0.map (fun a => (a, classify (f a)))).length = g0.length :=
      List.length_map _ _
    have hc1 : 1 ≤ (clampConcurrency cp).toNat := by omega
    show (g0.map (fun a => (a, classify (f a)))).length ≤ 10
    omega

open OwnedRoute in
/-- C10 witness: with an absurd limit of 100000 and concurrency of 99,
the clamps land in range and the single produced group of a 3-item run
holds at most 10 items. -/
theorem C10_witness :
    1 ≤ clampLimit (some 100000) ∧ clampLimit (some 100000) ≤ 250 ∧
    (GroupRun.mk [((1 : Int), Outcome.imported), (2, Outcome.imported),
      (3, Outcome.imported)] 0).items.length ≤ 10 := by
  have h := C10_parameter_clamping [1, 2, 3] [] (some 100000) (some 0) (some 99)
    none none (fun _ => ImportResp.resp 200 "")
  refine ⟨h.1.1, h.1.2, ?_⟩
  exact h.2.2.2.2.2 (GroupRun.mk [(1, Outcome.imported), (2, Outcome.imported),
    (3, Outcome.imported)] 0) (by decide)

namespace ImportRoute

theorem find?_upsert_update (games : List Game) (appId : Int) (gd : Normalizers.GameData)
    (hkey : gd.steamAppId = appId) (g : Game)
    (h : games.find? (fun x => x.steamAppId == appId) = some g) :
    (games.map (fun x => if x.steamAppId == appId then applyUpdate x gd else x)).find?
      (fun x => x.steamAppId == appId) = some (applyUpdate g gd) := by
  induction games with
  | nil => simp at h
  | cons x t ih =>
    simp only [List.find?_cons] at h
    cases hc : (x.steamAppId == appId) with
    | true =>
      simp only [hc] at h
      injection h with hxg
      subst hxg
      have hup : ((applyUpdate x gd).steamAppId == appId) = true := by
        simp [applyUpdate, hkey]
      have hx : x.steamAppId = appId := by simpa using hc
      simp [List.find?_cons, hx, hup]
    | false =>
      simp only [hc] at h
      simp only [List.map_cons, List.find?_cons, hc, Bool.false_eq_true, if_false]
      exact ih h

end ImportRoute

open ImportRoute Normalizers in
/-- C3: when a game row already exists for the external id, a re-import
updates it through updateData, which destructures the slug field away:
the stored slug is unchanged while the title (and the other fields)
take the freshly normalized values. -/
theorem C3_slug_stable_on_reimport (db : Db) (appId : Int) (d : SteamAppDetails)
    (reviews : Option ReviewsSummary) (g : Game)
    (h : findGame db appId = some g) :
    (findGame (importApply db appId d reviews) appId).map Game.slug = some g.slug ∧
    (findGame (importApply db appId d reviews) appId).map Game.title
      = some (normalizeGame appId d reviews).title := by
  have hfg : db.games.find? (fun x => x.steamAppId == appId) = some g := h
  have hpred := List.find?_some hfg
  have hmem : g ∈ db.games := List.mem_of_find?_eq_some hfg
  have hany : db.games.any (fun x => x.steamAppId == appId) = true :=
    List.any_eq_true.mpr ⟨g, hmem, hpred⟩
  have hfind : findGame (importApply db appId d reviews) appId
      = some (applyUpdate g (normalizeGame appId d reviews)) := by
    show (upsertGame db.games appId (normalizeGame appId d reviews)).find?
      (fun x => x.steamAppId == appId) = _
    unfold upsertGame
    rw [if_pos hany]
    exact find?_upsert_update db.games appId _ rfl g hfg
  rw [hfind]
  exact ⟨rfl, rfl⟩

open ImportRoute Normalizers in
/-- C3 witness: a stored game with slug old-570 re-imported with the
upstream title changed to New Name keeps slug old-570 while the title
updates. -/
theorem C3_witness :
    (findGame (importApply
        (Db.mk [Game.mk 570 "Old" "old-570" none none none none none none none none none]
          [] [] [] [] [])
        570 { name := some "New Name" } none) 570).map Game.slug = some "old-570" ∧
    (findGame (importApply
        (Db.mk [Game.mk 570 "Old" "old-570" none none none none none none none none none]
          [] [] [] [] [])
        570 { name := some "New Name" } none) 570).map Game.title = some "New Name" :=
  C3_slug_stable_on_reimport
    (Db.mk [Game.mk 570 "Old" "old-570" none none none none none none none none none]
      [] [] [] [] [])
    570 { name := some "New Name" } none
    (Game.mk 570 "Old" "old-570" none none none none none none none none none) rfl

open ImportRoute Normalizers in
/-- C6: a re-import replaces the stored screenshot set of the game with
exactly the newly normalized list — the transaction deletes every row
of the game and inserts the new rows — so a list that normalizes to 2
usable entries leaves exactly 2 stored rows, none surviving from the
prior import. -/
theorem C6_screenshots_fully_replaced (db : Db) (appId : Int) (d : SteamAppDetails)
    (reviews : Option ReviewsSummary) :
    screenshotsFor (importApply db appId d reviews) appId = normalizeScreenshots d ∧
    ((normalizeScreenshots d).length = 2 →
      (screenshotsFor (importApply db appId d reviews) appId).length = 2) := by
  have hmain : screenshotsFor (importApply db appId d reviews) appId
      = normalizeScreenshots d := by
    show ((db.screenshots.filter (fun r => r.1 != appId)
        ++ (normalizeScreenshots d).map (fun s => (appId, s))).filter
          (fun r => r.1 == appId)).map (fun r => r.2) = _
    rw [List.filter_append]
    have h1 : (db.screenshots.filter (fun r => r.1 != appId)).filter
        (fun r => r.1 == appId) = [] := by
      rw [List.filter_filter]
      apply List.filter_eq_nil.mpr
      intro a _
      cases hb : (a.1 == appId) <;> simp [bne, hb]
    have h2 : ((normalizeScreenshots d).map (fun s => (appId, s))).filter
        (fun r => r.1 == appId) = (normalizeScreenshots d).map (fun s => (appId, s)) := by
      apply List.filter_eq_self.mpr
      intro a ha
      obtain ⟨s, -, rfl⟩ := List.mem_map.mp ha
      simp
    rw [h1, h2, List.nil_append, List.map_map]
    have hfun : ((fun r : Int × ScreenshotRow => r.2) ∘ fun s : ScreenshotRow => (appId, s))
        = fun s : ScreenshotRow => s := rfl
    rw [hfun, List.map_id']
  exact ⟨hmain, fun h => by rw [hmain]; exact h⟩

open ImportRoute Normalizers in
/-- C6 witness: a store holding 5 screenshot rows for the game,
re-imported with an upstream list whose 3 entries normalize to 2 usable
rows, ends with exactly those 2 rows. -/
theorem C6_witness :
    (normalizeScreenshots
        (SteamAppDetails.mk none none none none none none none none
          (some [RawScreenshot.mk (some "a") none, RawScreenshot.mk none none,
            RawScreenshot.mk none (some "b")]) none none none)).length = 2 ∧
    (screenshotsFor (importApply
        (Db.mk [] [] [] [] []
          [(570, ScreenshotRow.mk "s1" none 0), (570, ScreenshotRow.mk "s2" none 1),
           (570, ScreenshotRow.mk "s3" none 2), (570, ScreenshotRow.mk "s4" none 3),
           (570, ScreenshotRow.mk "s5" none 4)])
        570
        (SteamAppDetails.mk none none none none none none none none
          (some [RawScreenshot.mk (some "a") none, RawScreenshot.mk none none,
            RawScreenshot.mk none (some "b")]) none none none)
        none) 570).length = 2 := by
  refine ⟨by decide, ?_⟩
  exact (C6_screenshots_fully_replaced
    (Db.mk [] [] [] [] []
      [(570, ScreenshotRow.mk "s1" none 0), (570, ScreenshotRow.mk "s2" none 1),
       (570, ScreenshotRow.mk "s3" none 2), (570, ScreenshotRow.mk "s4" none 3),
       (570, ScreenshotRow.mk "s5" none 4)])
    570
    (SteamAppDetails.mk none none none none none none none none
      (some [RawScreenshot.mk (some "a") none, RawScreenshot.mk none none,
        RawScreenshot.mk none (some "b")]) none none none)
    none).2 (by decide)

open Normalizers ImportRoute in
/-- C7 counterexample: uniqueCanonical maps the single upstream name
Action to the stored list [action] — the canonical lowercased form, not
the first-seen display form Action. -/
theorem C7_counterexample :
    uniqueCanonical ["Action"] = ["action"] ∧ ("action" : String) ≠ "Action" := by
  decide

open Normalizers ImportRoute in
/-- C7 (amended): tag names are deduplicated case- and
whitespace-insensitively but stored in canonical lowercased form:
Action and action-with-trailing-space arriving across two imports of
the same item collapse to the single stored term action, linked to the
item exactly once. -/
theorem C7_amended_single_canonical_term :
    uniqueCanonical ["Action", "action "] = ["action"] ∧
    (importApply (importApply Db.empty 570
        (SteamAppDetails.mk none none none none none none none none none
          (some [RawTagEntry.mk (some "Action")]) none none) none) 570
        (SteamAppDetails.mk none none none none none none none none none
          (some [RawTagEntry.mk (some "action ")]) none none) none).tags = ["action"] ∧
    (importApply (importApply Db.empty 570
        (SteamAppDetails.mk none none none none none none none none none
          (some [RawTagEntry.mk (some "Action")]) none none) none) 570
        (SteamAppDetails.mk none none none none none none none none none
          (some [RawTagEntry.mk (some "action ")]) none none) none).gameTags
      = [(570, "action")] := by
  refine ⟨by decide, by decide, by decide⟩

open ImportRoute Part004 Normalizers in
/-- C4: the part_004 importOne checks the id-level denylist before any
network call — a denylisted id yields the 422 DENYLISTED_APP response
with an empty network trace — and an item whose normalized slug is
denylisted is rejected with 422 DENYLISTED_SLUG after the detail fetch
and normalization. -/
theorem C4_denylist_precedence (denyIds : List Int) (denySlugs : List String)
    (appId : Int) (payload : JVal) (reviews : Option ReviewsSummary) (db : Db) :
    (appId ∈ denyIds →
      Part004.importOne denyIds denySlugs appId payload reviews db
        = (WebResponse.mk 422 (some "DENYLISTED_APP"), db, [])) ∧
    (appId ∉ denyIds → ∀ dJ, importDetailGate payload appId = GateResult.ok dJ →
      (normalizeGame appId (detailsOfJVal dJ) reviews).slug ∈ denySlugs →
      Part004.importOne denyIds denySlugs appId payload reviews db
        = (WebResponse.mk 422 (some "DENYLISTED_SLUG"), db,
            [NetEvent.fetchDetails appId, NetEvent.fetchReviews appId])) := by
  constructor
  · intro h
    unfold Part004.importOne
    rw [if_pos h]
  · intro h dJ hgate hslug
    unfold Part004.importOne
    rw [if_neg h, hgate]
    simp only [if_pos hslug]

open ImportRoute Part004 Normalizers in
/-- C4 witness: the denylisted id 570 is rejected with no network call;
with the id allowed but slug dota-2-570 denylisted, the fetched and
normalized item is rejected as DENYLISTED_SLUG after the two fetch
calls. -/
theorem C4_witness :
    Part004.importOne [570] [] 570 JVal.jnull none Db.empty
      = (WebResponse.mk 422 (some "DENYLISTED_APP"), Db.empty, []) ∧
    Part004.importOne [] ["dota-2-570"] 570
        (JVal.jobj [("success", JVal.jbool true),
          ("data", JVal.jobj [("name", JVal.jstr "Dota 2")])]) none Db.empty
      = (WebResponse.mk 422 (some "DENYLISTED_SLUG"), Db.empty,
          [NetEvent.fetchDetails 570, NetEvent.fetchReviews 570]) := by
  constructor
  · exact (C4_denylist_precedence [570] [] 570 JVal.jnull none Db.empty).1 (by decide)
  · exact (C4_denylist_precedence [] ["dota-2-570"] 570
      (JVal.jobj [("success", JVal.jbool true),
        ("data", JVal.jobj [("name", JVal.jstr "Dota 2")])]) none Db.empty).2
      (by decide) (JVal.jobj [("name", JVal.jstr "Dota 2")]) rfl (by decide)

open ImportRoute in
/-- C8 counterexample: a payload with a boolean success field is
settled as the flat shape B even though it fails the validity
heuristic, while its appId-keyed entry does satisfy the heuristic and
would be picked by the claimed first-shape-satisfying-the-heuristic
rule. The code therefore answers 422 NO_APPDETAILS where the claimed
rule would instead accept the keyed bare payload. -/
theorem C8_counterexample :
    unwrapDetailsResponse (JVal.jobj [("success", JVal.jbool true),
        ("570", JVal.jobj [("name", JVal.jstr "Dota")])]) 570
      = some (Unwrapped.mk true none Shape.B) ∧
    importOneGateResponse (JVal.jobj [("success", JVal.jbool true),
        ("570", JVal.jobj [("name", JVal.jstr "Dota")])]) 570
      = some (WebResponse.mk 422 (some "NO_APPDETAILS")) ∧
    JVal.getField (JVal.jobj [("success", JVal.jbool true),
        ("570", JVal.jobj [("name", JVal.jstr "Dota")])]) "570"
      = some (JVal.jobj [("name", JVal.jstr "Dota")]) ∧
    hasDetailsShape (JVal.jobj [("name", JVal.jstr "Dota")]) = true ∧
    hasDetailsShape (JVal.jobj [("success", JVal.jbool true),
        ("570", JVal.jobj [("name", JVal.jstr "Dota")])]) = false := by
  exact ⟨rfl, rfl, rfl, rfl, rfl⟩

open ImportRoute in
/-- C8 (amended): the shapes are tried in the fixed order flat,
keyed-envelope, keyed-bare, bare, but the flat shape is selected by the
mere presence of a boolean success field (the validity heuristic serves
only as a data fallback and to gate the two bare shapes); whenever no
shape matches, importOne answers 422 with code NO_APPDETAILS instead of
throwing. -/
theorem C8_amended_unwrap_order (p : JVal) (appId : Int) :
    (specNoShapeMatches p appId = true →
      importOneGateResponse p appId = some (WebResponse.mk 422 (some "NO_APPDETAILS"))) ∧
    ((JVal.truthy p && JVal.isObjType p) = true → (JVal.successField p).isSome = true →
      (unwrapDetailsResponse p appId).map Unwrapped.shape = some Shape.B) := by
  constructor
  · intro h
    unfold specNoShapeMatches at h
    unfold importOneGateResponse importDetailGate unwrapDetailsResponse
    cases hobj : (JVal.truthy p && JVal.isObjType p) with
    | false =>
      simp [hobj]
    | true =>
      simp only [hobj, Bool.not_true, Bool.false_or, Bool.and_eq_true] at h
      obtain ⟨⟨hs, he⟩, hd⟩ := h
      simp only [hobj, Bool.not_true, Bool.false_eq_true, if_false]
      cases hsv : JVal.successField p with
      | some b => simp [hsv] at hs
      | none =>
        simp only [hsv]
        cases hev : JVal.getField p (toString appId) with
        | some e =>
          simp only [hev, Bool.and_eq_true] at he
          obtain ⟨hes, hed⟩ := he
          cases hesv : JVal.successField e with
          | some b => simp [hesv] at hes
          | none =>
            simp only [hesv]
            rw [Bool.not_eq_true'] at hed hd
            simp [hed, hd]
        | none =>
          simp only [hev]
          rw [Bool.not_eq_true'] at hd
          simp [hd]
  · intro hobj hsome
    unfold unwrapDetailsResponse
    obtain ⟨b, hb⟩ := Option.isSome_iff_exists.mp hsome
    simp [hobj, hb]

open ImportRoute in
/-- C8 witness: a bare string payload matches no shape and is answered
422 NO_APPDETAILS; a payload whose only content is success false is
still settled as shape B. -/
theorem C8_witness :
    importOneGateResponse (JVal.jstr "unexpected") 570
      = some (WebResponse.mk 422 (some "NO_APPDETAILS")) ∧
    (unwrapDetailsResponse (JVal.jobj [("success", JVal.jbool false)]) 570).map
        Unwrapped.shape = some Shape.B := by
  constructor
  · exact (C8_amended_unwrap_order (JVal.jstr "unexpected") 570).1 (by decide)
  · exact (C8_amended_unwrap_order (JVal.jobj [("success", JVal.jbool false)]) 570).2
      (by decide) (by decide)

namespace Steam

@[simp] theorem requestsOf_nil : requestsOf [] = [] := rfl

@[simp] theorem requestsOf_cons_request (f c : Bool) (l : List Event) :
    requestsOf (Event.request f c :: l) = (f, c) :: requestsOf l := rfl

@[simp] theorem requestsOf_cons_sleep (ms : Nat) (l : List Event) :
    requestsOf (Event.sleep ms :: l) = requestsOf l := rfl

@[simp] theorem requestsOf_append (a b : List Event) :
    requestsOf (a ++ b) = requestsOf a ++ requestsOf b := by
  unfold requestsOf
  exact List.filterMap_append _ _ _

@[simp] theorem requestsOf_statusSleeps (st j : Nat) :
    requestsOf (statusSleeps st j) = [] := by
  unfold statusSleeps
  split_ifs <;> rfl

theorem sleep_mem_statusSleeps (st j ms : Nat) (h : Event.sleep ms ∈ statusSleeps st j) :
    ms = 400 ∨ ms = 1200 + j % 400 := by
  unfold statusSleeps at h
  split_ifs at h <;> simp at h <;> omega

theorem loop_sleep_values (id : Int) (oracle : Nat → AttemptResponse) (jitter : Nat)
    (ps : List (Nat × Bool × Bool)) :
    ∀ ms, Event.sleep ms ∈ (loop id oracle jitter ps).2 →
      ms = 400 ∨ ms = 1200 + jitter % 400 := by
  induction ps with
  | nil => intro ms h; simp [loop] at h
  | cons pr rest ih =>
    obtain ⟨i, f, c⟩ := pr
    intro ms h
    cases hu : usableEnvelope (oracle i).body id with
    | true => simp [loop, hu] at h
    | false =>
      simp only [loop, hu, Bool.false_eq_true, if_false, List.mem_cons,
        List.mem_append] at h
      rcases h with h | h | h
      · exact absurd h (by simp)
      · exact sleep_mem_statusSleeps _ _ _ h
      · exact ih ms h

theorem loop_requests_prefix (id : Int) (oracle : Nat → AttemptResponse) (jitter : Nat)
    (ps : List (Nat × Bool × Bool)) :
    requestsOf (loop id oracle jitter ps).2 <+: ps.map (fun t => (t.2.1, t.2.2)) := by
  induction ps with
  | nil => simp [loop]
  | cons pr rest ih =>
    obtain ⟨i, f, c⟩ := pr
    cases hu : usableEnvelope (oracle i).body id with
    | true =>
      simp only [loop, hu, if_true, List.map_cons]
      exact ⟨rest.map (fun t => (t.2.1, t.2.2)), by simp⟩
    | false =>
      simp only [loop, hu, Bool.false_eq_true, if_false, List.map_cons,
        requestsOf_cons_request, requestsOf_append, requestsOf_statusSleeps,
        List.nil_append]
      obtain ⟨t, ht⟩ := ih
      exact ⟨t, by rw [List.cons_append, ht]⟩

theorem loop_result_none (id : Int) (oracle : Nat → AttemptResponse) (jitter : Nat)
    (ps : List (Nat × Bool × Bool))
    (h : ∀ pr ∈ ps, usableEnvelope (oracle pr.1).body id = false) :
    (loop id oracle jitter ps).1 = none := by
  induction ps with
  | nil => rfl
  | cons pr rest ih =>
    obtain ⟨i, f, c⟩ := pr
    have hu : usableEnvelope (oracle i).body id = false := h (i, f, c) (by simp)
    simp only [loop, hu, Bool.false_eq_true, if_false]
    exact ih (fun q hq => h q (List.mem_cons_of_mem _ hq))

theorem loop_requests_of_none (id : Int) (oracle : Nat → AttemptResponse) (jitter : Nat)
    (ps : List (Nat × Bool × Bool))
    (h : ∀ pr ∈ ps, usableEnvelope (oracle pr.1).body id = false) :
    requestsOf (loop id oracle jitter ps).2 = ps.map (fun t => (t.2.1, t.2.2)) := by
  induction ps with
  | nil => simp [loop]
  | cons pr rest ih =>
    obtain ⟨i, f, c⟩ := pr
    have hu : usableEnvelope (oracle i).body id = false := h (i, f, c) (by simp)
    simp only [loop, hu, Bool.false_eq_true, if_false, List.map_cons,
      requestsOf_cons_request, requestsOf_append, requestsOf_statusSleeps,
      List.nil_append]
    rw [ih (fun q hq => h q (List.mem_cons_of_mem _ hq))]

end Steam

namespace Steam

theorem usable_isSome (body : Option JVal) (id : Int)
    (h : usableEnvelope body id = true) : body.isSome = true := by
  cases body with
  | none => simp [usableEnvelope] at h
  | some j => rfl

theorem loop_none_requests_full (id : Int) (oracle : Nat → AttemptResponse) (jitter : Nat)
    (ps : List (Nat × Bool × Bool)) (h : (loop id oracle jitter ps).1 = none) :
    requestsOf (loop id oracle jitter ps).2 = ps.map (fun t => (t.2.1, t.2.2)) := by
  induction ps with
  | nil => simp [loop]
  | cons pr rest ih =>
    obtain ⟨i, f, c⟩ := pr
    cases hu : usableEnvelope (oracle i).body id with
    | true =>
      exfalso
      simp only [loop, hu, if_true] at h
      have := usable_isSome (oracle i).body id hu
      cases hb : (oracle i).body with
      | none => rw [hb] at this; simp at this
      | some j => rw [hb] at h; simp at h
    | false =>
      simp only [loop, hu, Bool.false_eq_true, if_false] at h ⊢
      simp only [requestsOf_cons_request, requestsOf_append, requestsOf_statusSleeps,
        List.nil_append, List.map_cons]
      rw [ih h]

end Steam

open Steam in
/-- C9 counterexample: when all four attempts answer 404 with a
non-JSON body, the fetcher makes exactly the four matrix requests with
no sleep between any of them and no final extra attempt, and returns
the failure envelope — so the claimed between-attempt randomized delays
and the unconditional final longer-delayed attempt do not happen. -/
theorem C9_counterexample :
    fetchAppDetails 570 (fun _ => AttemptResponse.mk 404 none) 0
      = (failEnvelope 570,
        [Event.request true false, Event.request false false,
         Event.request true true, Event.request false true]) := rfl

open Steam in
/-- C9 (amended): sleeps occur only as the 400-millisecond 5xx backoff,
the randomized 403 backoff of 1200 plus jitter, or the final 1500
pre-attempt delay; the requests are always an in-order prefix of the
parameter/cookie matrix plus the final full-with-cookies attempt; when
every attempt is unusable the result is the success-false data-null
envelope; and the final longer-delayed attempt happens exactly when the
last matrix attempt returned 403. -/
theorem C9_amended_fetch_policy (id : Int) (oracle : Nat → AttemptResponse) (jitter : Nat) :
    (∀ ms, Event.sleep ms ∈ (fetchAppDetails id oracle jitter).2 →
      ms = 400 ∨ ms = 1500 ∨ ms = 1200 + jitter % 400) ∧
    (requestsOf (fetchAppDetails id oracle jitter).2 <+:
      [(true, false), (false, false), (true, true), (false, true), (false, true)]) ∧
    ((∀ i, i < 5 → usableEnvelope (oracle i).body id = false) →
      (fetchAppDetails id oracle jitter).1 = failEnvelope id) ∧
    ((∀ i, i < 4 → usableEnvelope (oracle i).body id = false) → (oracle 3).status ≠ 403 →
      requestsOf (fetchAppDetails id oracle jitter).2
        = [(true, false), (false, false), (true, true), (false, true)]) ∧
    ((∀ i, i < 4 → usableEnvelope (oracle i).body id = false) → (oracle 3).status = 403 →
      requestsOf (fetchAppDetails id oracle jitter).2
        = [(true, false), (false, false), (true, true), (false, true), (false, true)] ∧
      Event.sleep 1500 ∈ (fetchAppDetails id oracle jitter).2) := by
  have hmat : ∀ (h4 : ∀ i, i < 4 → usableEnvelope (oracle i).body id = false),
      ∀ pr ∈ attemptMatrix, usableEnvelope (oracle pr.1).body id = false := by
    intro h4 pr hpr
    simp only [attemptMatrix, List.mem_cons, List.not_mem_nil, or_false] at hpr
    rcases hpr with rfl | rfl | rfl | rfl
    · exact h4 0 (by omega)
    · exact h4 1 (by omega)
    · exact h4 2 (by omega)
    · exact h4 3 (by omega)
  have hmap : attemptMatrix.map (fun t => (t.2.1, t.2.2))
      = [(true, false), (false, false), (true, true), (false, true)] := rfl
  rcases hl : loop id oracle jitter attemptMatrix with ⟨res, evs⟩
  have hsleepLoop : ∀ ms, Event.sleep ms ∈ evs →
      ms = 400 ∨ ms = 1200 + jitter % 400 := by
    have := loop_sleep_values id oracle jitter attemptMatrix
    rw [hl] at this
    exact this
  have hreqLoop : requestsOf evs <+:
      [(true, false), (false, false), (true, true), (false, true)] := by
    have := loop_requests_prefix id oracle jitter attemptMatrix
    rw [hl, hmap] at this
    exact this
  cases res with
  | some j =>
    have hfd : fetchAppDetails id oracle jitter = (j, evs) := by
      unfold fetchAppDetails
      rw [hl]
    have hnone : ∀ (h4 : ∀ i, i < 4 → usableEnvelope (oracle i).body id = false), False := by
      intro h4
      have := loop_result_none id oracle jitter attemptMatrix (hmat h4)
      rw [hl] at this
      simp at this
    refine ⟨?_, ?_, ?_, ?_, ?_⟩
    · intro ms h
      rw [hfd] at h
      rcases hsleepLoop ms h with h | h
      · exact Or.inl h
      · exact Or.inr (Or.inr h)
    · rw [hfd]
      exact hreqLoop.trans ⟨[(false, true)], rfl⟩
    · intro h5
      exact (hnone (fun i hi => h5 i (by omega))).elim
    · intro h4 _
      exact (hnone h4).elim
    · intro h4 _
      exact (hnone h4).elim
  | none =>
    cases h403 : ((oracle 3).status == 403) with
    | false =>
      have hfd : fetchAppDetails id oracle jitter = (failEnvelope id, evs) := by
        unfold fetchAppDetails
        rw [hl]
        simp [h403]
      refine ⟨?_, ?_, ?_, ?_, ?_⟩
      · intro ms h
        rw [hfd] at h
        rcases hsleepLoop ms h with h | h
        · exact Or.inl h
        · exact Or.inr (Or.inr h)
      · rw [hfd]
        exact hreqLoop.trans ⟨[(false, true)], rfl⟩
      · intro _
        rw [hfd]
      · intro h4 _
        rw [hfd]
        have := loop_requests_of_none id oracle jitter attemptMatrix (hmat h4)
        rw [hl, hmap] at this
        exact this
      · intro _ h3
        exact absurd h3 (by simp at h403; exact h403)
    | true =>
      have hfd2 : (fetchAppDetails id oracle jitter).2
          = evs ++ [Event.sleep 1500, Event.request false true] := by
        unfold fetchAppDetails
        rw [hl]
        simp only [h403, if_true]
        rcases hb : (oracle 4).body with _ | j4 <;>
          cases hu : usableEnvelope (oracle 4).body id <;>
          rw [hb] at hu <;>
          simp [hb, hu]
      have hreqFull : requestsOf evs = [(true, false), (false, false),
          (true, true), (false, true)] := by
        have hnone : (loop id oracle jitter attemptMatrix).1 = none := by
          rw [hl]
        have := loop_none_requests_full id oracle jitter attemptMatrix hnone
        rw [hl, hmap] at this
        exact this
      have hreq2 : requestsOf (fetchAppDetails id oracle jitter).2
          = [(true, false), (false, false), (true, true), (false, true), (false, true)] := by
        rw [hfd2, requestsOf_append, hreqFull]
        rfl
      refine ⟨?_, ?_, ?_, ?_, ?_⟩
      · intro ms h
        rw [hfd2] at h
        rcases List.mem_append.mp h with h | h
        · rcases hsleepLoop ms h with h | h
          · exact Or.inl h
          · exact Or.inr (Or.inr h)
        · simp only [List.mem_cons, List.not_mem_nil, or_false] at h
          rcases h with h | h
          · exact Or.inr (Or.inl (Event.sleep.inj h))
          · exact absurd h (by simp)
      · rw [hreq2]
      · intro h5
        have hu4 : usableEnvelope (oracle 4).body id = false := h5 4 (by omega)
        unfold fetchAppDetails
        rw [hl]
        simp only [h403, if_true]
        rcases hb : (oracle 4).body with _ | j4 <;>
          rw [hb] at hu4 <;>
          simp [hb, hu4]
      · intro _ hne
        exact absurd (by simpa using h403) hne
      · intro _ _
        refine ⟨hreq2, ?_⟩
        rw [hfd2]
        simp

open Steam in
/-- C9 amended witness: with every attempt answering 404 and its last
status not 403, the requests are exactly the four matrix attempts and
no final extra attempt is made. -/
theorem C9_amended_witness :
    requestsOf ((fetchAppDetails 571 (fun _ => AttemptResponse.mk 404 none) 7).2)
      = [(true, false), (false, false), (true, true), (false, true)] :=
  (C9_amended_fetch_policy 571 (fun _ => AttemptResponse.mk 404 none) 7).2.2.2.1
    (by decide) (by decide)
